import Mathlib

set_option autoImplicit false
set_option linter.unusedVariables false

/-!
Shallow embedding of the MBVectorTileDecoder style/decode engine
(src/all/native/vectortiles/MBVectorTileDecoder.cpp).

Pure data is mirrored structurally: `mvt::Value` (a
`boost::variant<boost::blank, bool, long long, double, std::string>`) becomes the
inductive `Value` with machine floating point modelled over `ℚ`; `std::map`s keyed
by strings become association lists looked up with `alookup` (C++ `std::map::find`)
and updated with `setAssoc` (C++ `operator[]` assignment, replace-or-insert).
External collaborators that live outside this repository (the mapnikvt wire-format
parser, the CartoCSS compiler, boost::lexical_cast, the tile reader) are modelled
from the spec, each marked in its doc comment; the engine's own control flow is
translated line by line from the source.  Exceptions thrown by the C++ code are
modelled with `Except`/explicit outcome types; a C++ function that catches all
exceptions at its boundary is modelled as a total function over the outcome of its
body.
-/

/-- The scalar kind of an `mvt::Value` alternative (which `boost::variant`
alternative is held). -/
inductive VKind
  | nullK
  | boolK
  | intK
  | doubleK
  | stringK
deriving DecidableEq

/-- `mvt::Value`: `boost::variant<boost::blank, bool, long long, double, std::string>`.
The `double` alternative is modelled over `ℚ` (every machine double is rational). -/
inductive Value
  | nullV
  | boolV (b : Bool)
  | intV (i : Int)
  | doubleV (q : ℚ)
  | stringV (s : String)
deriving DecidableEq

/-- Which variant alternative a value holds. -/
def Value.kind : Value → VKind
  | .nullV => .nullK
  | .boolV _ => .boolK
  | .intV _ => .intK
  | .doubleV _ => .doubleK
  | .stringV _ => .stringK

/-- `mvt::NutiParameter`: a declared style parameter with its default value and
optional enum table (label to value). -/
structure NutiParameter where
  defaultValue : Value
  enumMap : List (String × Value)
deriving DecidableEq

/-- The part of `mvt::Map` the engine reads: declared style parameters
(`getNutiParameterMap`) and the global settings used by `updateCurrentStyle`. -/
structure MvtMap where
  nutiParameterMap : List (String × NutiParameter)
  backgroundImage : String
  fontDirectory : String
deriving DecidableEq

/-- `std::map::find` on a string-keyed association list. -/
def alookup {β : Type} (key : String) : List (String × β) → Option β
  | [] => none
  | (k, v) :: t => if key = k then some v else alookup key t

/-- `std::map::operator[] = v`: replace the binding if the key is present,
append it otherwise. -/
def setAssoc {β : Type} (key : String) (v : β) : List (String × β) → List (String × β)
  | [] => [(key, v)]
  | (k, w) :: t => if k = key then (k, v) :: t else (k, w) :: setAssoc key v t

/-! ## Numeric string conversion

Modelled from the spec: `boost::lexical_cast` (external library), the
"style-parameter wire format": booleans accept literal `"true"`/`"false"` plus a
generic boolean parse as fallback (`lexical_cast<bool>` accepts exactly `"1"`/`"0"`);
integers and floats use standard numeric literal parsing; serialization uses the
standard stream output (`"1"`/`"0"` for bool, decimal digits for integers, a numeric
literal with a decimal exponent for floating point). -/

/-- The decimal digit character for `d` (meaningful for `d < 10`). -/
def digitChar (d : ℕ) : Char := Char.ofNat (48 + d)

/-- Little-endian base-10 digits of `n`, with explicit fuel (`fuel ≥ n` suffices). -/
def natDigitsAux : ℕ → ℕ → List ℕ
  | 0, _ => []
  | fuel + 1, n => if n = 0 then [] else (n % 10) :: natDigitsAux fuel (n / 10)

/-- Little-endian base-10 digits of `n` (empty for `n = 0`). -/
def natDigits (n : ℕ) : List ℕ := natDigitsAux n n

/-- Standard decimal rendering of a natural number. -/
def serNat (n : ℕ) : List Char :=
  if n = 0 then ['0'] else ((natDigits n).map digitChar).reverse

/-- The numeric value of a decimal digit character. -/
def charDigitVal (c : Char) : ℕ := c.toNat - 48

/-- Parse a nonempty all-digit string as a natural number. -/
def parseNat (l : List Char) : Option ℕ :=
  if l ≠ [] ∧ l.all (·.isDigit) then
    some (l.foldl (fun a c => a * 10 + charDigitVal c) 0)
  else
    none

/-- Standard decimal rendering of an integer. -/
def serInt (i : Int) : List Char :=
  if i < 0 then '-' :: serNat i.natAbs else serNat i.toNat

/-- Parse an optionally negated decimal integer. -/
def parseInt (l : List Char) : Option Int :=
  if l.head? = some '-' then
    (parseNat l.tail).map (fun n => -Int.ofNat n)
  else
    (parseNat l).map Int.ofNat

/-- Number of times `p` divides `n`, with explicit fuel (`fuel ≥ n` suffices). -/
def factorCountAux (p : ℕ) : ℕ → ℕ → ℕ
  | 0, _ => 0
  | fuel + 1, n => if 1 < p ∧ n ≠ 0 ∧ n % p = 0 then factorCountAux p fuel (n / p) + 1 else 0

/-- A decimal exponent large enough that `q.den ∣ 10 ^ decExp q` whenever the
denominator of `q` is 10-smooth (which holds for every value a machine double,
a dyadic rational, can take). -/
def decExp (q : ℚ) : ℕ :=
  max (factorCountAux 2 q.den q.den) (factorCountAux 5 q.den q.den)

/-- Render a rational as a numeric literal with a decimal exponent,
`<mantissa>e-<exp>`; exact whenever `q.den ∣ 10 ^ decExp q`. -/
def serQ (q : ℚ) : List Char :=
  serInt (q.num * ((10 ^ decExp q / q.den : ℕ) : Int)) ++ 'e' :: '-' :: serNat (decExp q)

/-- Parse an unsigned decimal literal with an optional fractional part. -/
def parseUnsignedDec (l : List Char) : Option ℚ :=
  match l.dropWhile (fun c => c != '.') with
  | [] => (parseNat l).map (fun (n : ℕ) => (n : ℚ))
  | _ :: fracs =>
    match parseNat (l.takeWhile (fun c => c != '.')), parseNat fracs with
    | some ip, some fp => some ((ip : ℚ) + (fp : ℚ) / 10 ^ fracs.length)
    | _, _ => none

/-- Parse an optionally negated decimal literal. -/
def parseSignedDec (l : List Char) : Option ℚ :=
  if l.head? = some '-' then
    (parseUnsignedDec l.tail).map Neg.neg
  else
    parseUnsignedDec l

/-- Parse a standard floating point literal: a signed decimal with an optional
signed decimal exponent. -/
def parseQ (l : List Char) : Option ℚ :=
  match l.dropWhile (fun c => c != 'e') with
  | [] => parseSignedDec l
  | _ :: rest =>
    let ms := l.takeWhile (fun c => c != 'e')
    let negExp := rest.head? = some '-'
    let ds := if negExp then rest.tail else rest
    (parseSignedDec ms).bind fun m => (parseNat ds).map fun k =>
      if negExp then m / 10 ^ k else m * 10 ^ k

/-- `boost::lexical_cast<bool>`: accepts exactly `"1"` and `"0"`, throws otherwise. -/
def lexBool (s : String) : Except Unit Bool :=
  if s = "1" then .ok true else if s = "0" then .ok false else .error ()

/-- `boost::lexical_cast<long long>`: standard integer literal parsing, throws on
failure. -/
def lexLongLong (s : String) : Except Unit Int :=
  match parseInt s.data with
  | some i => .ok i
  | none => .error ()

/-- `boost::lexical_cast<double>`: standard floating point literal parsing, throws
on failure. -/
def lexDouble (s : String) : Except Unit ℚ :=
  match parseQ s.data with
  | some q => .ok q
  | none => .error ()

/-- Stream serialization of an `mvt::Value` as used by `getStyleParameter`
(`boost::lexical_cast<std::string>` on the held alternative; the blank
alternative falls through to `return std::string()`). -/
def serializeValue : Value → String
  | .boolV b => if b then "1" else "0"
  | .intV i => String.mk (serInt i)
  | .doubleV q => String.mk (serQ q)
  | .stringV s => s
  | .nullV => ""

/-! ## Geometry and features -/

/-- `cglib::vec2<float>`: a tile-local coordinate. -/
abbrev Vec2 : Type := ℚ × ℚ

/-- `carto::MapPos` (x, y, z). -/
abbrev MapPos : Type := ℚ × ℚ × ℚ

/-- `carto::MapBounds`: a geographic bounding rectangle with `getMin`/`getMax`
corners.  Modelled from the spec: `MapBounds` (core class not under src/);
`getDelta` is the componentwise difference max − min. -/
structure MapBounds where
  minX : ℚ
  minY : ℚ
  maxX : ℚ
  maxY : ℚ
deriving DecidableEq

/-- The point conversion lambda of `decodeFeature` (source lines 404-406):
`MapPos(min.x + pos(0) * delta.x, max.y - pos(1) * delta.y, 0)`. -/
def tileToMapPos (b : MapBounds) (pos : Vec2) : MapPos :=
  (b.minX + pos.1 * (b.maxX - b.minX), b.maxY - pos.2 * (b.maxY - b.minY), 0)

/-- `carto::mvt::Geometry`: the wire geometry of a decoded feature, one of the
three multi-part shapes (`PointGeometry` holds a vertex list, `LineGeometry` a
list of vertex lists, `PolygonGeometry` a list of polygons, each a ring list). -/
inductive MvtGeometry
  | point (vertices : List Vec2)
  | line (verticesList : List (List Vec2))
  | polygon (polygonList : List (List (List Vec2)))
deriving DecidableEq

/-- `carto::Geometry` and its subclasses as produced by `convertGeometry`. -/
inductive Geometry
  | point (pos : MapPos)
  | line (poses : List MapPos)
  | polygon (rings : List (List MapPos))
  | multiPoint (points : List MapPos)
  | multiLine (lines : List (List MapPos))
  | multiPolygon (polygons : List (List (List MapPos)))
deriving DecidableEq

/-- The runtime type of a converted geometry. -/
inductive GKind
  | pt
  | ln
  | pg
  | mpt
  | mln
  | mpg
deriving DecidableEq

/-- Which `carto::Geometry` subclass a geometry is. -/
def Geometry.gKind : Geometry → GKind
  | .point _ => .pt
  | .line _ => .ln
  | .polygon _ => .pg
  | .multiPoint _ => .mpt
  | .multiLine _ => .mln
  | .multiPolygon _ => .mpg

/-- The geometry type `convertGeometry` is specified to produce for a wire
geometry: a one-element multi-geometry collapses to its singular type, any other
part count stays multi. -/
def mvtCollapsedKind : MvtGeometry → GKind
  | .point vs => if vs.length = 1 then .pt else .mpt
  | .line ls => if ls.length = 1 then .ln else .mln
  | .polygon ps => if ps.length = 1 then .pg else .mpg

/-- `convertGeometry` (source lines 74-112): convert each part with the point
conversion function, then collapse a one-element collection to its singular
geometry; a null input geometry yields a null result. -/
def convertGeometry (f : Vec2 → MapPos) : Option MvtGeometry → Option Geometry
  | none => none
  | some (.point vs) =>
    match vs.map f with
    | [p] => some (.point p)
    | ps => some (.multiPoint ps)
  | some (.line ls) =>
    match ls.map (fun l => l.map f) with
    | [l] => some (.line l)
    | ls' => some (.multiLine ls')
  | some (.polygon ps) =>
    match ps.map (fun rings => rings.map (fun l => l.map f)) with
    | [pg] => some (.polygon pg)
    | ps' => some (.multiPolygon ps')

/-- `carto::Variant` as far as the decode path builds it: the image of
`mvt::Value` under `ValueConverter`. -/
inductive Variant
  | nullVar
  | boolVar (b : Bool)
  | intVar (i : Int)
  | doubleVar (q : ℚ)
  | stringVar (s : String)
deriving DecidableEq

/-- `ValueConverter` (source lines 42-45): `boost::blank` becomes the null
variant, every other alternative is wrapped unchanged. -/
def valueToVariant : Value → Variant
  | .nullV => .nullVar
  | .boolV b => .boolVar b
  | .intV i => .intVar i
  | .doubleV q => .doubleVar q
  | .stringV s => .stringVar s

/-- `mvt::Feature`: id, feature data (attribute map) and wire geometry.
Modelled from the spec: `mvt::Feature` is part of the external mapnikvt wire
decoder; only its accessors `getId`, `getFeatureData`, `getGeometry` are used. -/
structure MvtFeature where
  id : Int
  featureData : List (String × Value)
  geometry : Option MvtGeometry
deriving DecidableEq

/-- `mvt::MBVTFeatureDecoder`.  Modelled from the spec: the external mapnikvt
wire-format parser; after parsing a payload it can look up a feature (and its
layer name) by feature id. -/
structure FeatureDecoder where
  features : List (Int × String × MvtFeature)
deriving DecidableEq

/-- Lookup of a feature by id in the parsed payload (first match). -/
def findFeature (id : Int) : List (Int × String × MvtFeature) → Option (String × MvtFeature)
  | [] => none
  | (fid, layer, f) :: t => if fid = id then some (layer, f) else findFeature id t

/-- Modelled from the spec: `MBVTFeatureDecoder::getFeature(id, layerName)`
returns the feature with the given id, or null when no such feature exists. -/
def FeatureDecoder.getFeature (d : FeatureDecoder) (id : Int) : Option (String × MvtFeature) :=
  findFeature id d.features

/-- `carto::Feature`: converted geometry plus attribute variant map. -/
structure Feature where
  geometry : Option Geometry
  properties : List (String × Variant)
deriving DecidableEq

/-- `VectorTileDecoder::TileFeature`: feature id, source layer name, feature. -/
structure TileFeature where
  id : Int
  layerName : String
  feature : Feature
deriving DecidableEq

/-- `carto::BinaryData`: a raw tile payload.  `objId` models the C++ object
identity of the `std::shared_ptr<BinaryData>` (the feature-decode cache compares
payloads by pointer, `_cachedFeatureDecoder.first != tileData`). -/
structure BinaryData where
  objId : ℕ
  data : List ℕ
deriving DecidableEq

/-- `vt::TileId` (zoom, x, y). -/
structure TileId where
  zoom : Int
  x : Int
  y : Int
deriving DecidableEq

/-- `vt::Tile` produced by the tile reader, abstract. -/
abbrev VtTile : Type := ℕ

/-- `VectorTileDecoder::TileMap`: overscale level to renderable tile. -/
abbrev TileMap : Type := List (ℕ × VtTile)

/-! ## Style sets and engine state -/

instance {ε α : Type} [DecidableEq ε] [DecidableEq α] : DecidableEq (Except ε α) := fun x y =>
  match x, y with
  | .ok a, .ok b => if h : a = b then .isTrue (by rw [h]) else .isFalse (by simp [h])
  | .error e, .error f => if h : e = f then .isTrue (by rw [h]) else .isFalse (by simp [h])
  | .ok _, .error _ => .isFalse (by simp)
  | .error _, .ok _ => .isFalse (by simp)

/-- The parse outcomes for one style asset.  The asset bytes themselves are
opaque; what the engine observes of them are the outcomes of the external
parsers applied to them, so the model carries those outcomes: whether
`pugi::xml_document::load_buffer` succeeds, what `mvt::MapParser::parseMap`
yields, and what `css::CartoCSSMapLoader::loadMapProject` yields
(modelled from the spec: all three parsers are external collaborators). -/
structure StyleAsset where
  xmlWellFormed : Bool
  xmlMapResult : Except String MvtMap
  cssProjectResult : Except String MvtMap
deriving DecidableEq

/-- `carto::AssetPackage`: named assets resolvable with `loadAsset`. -/
structure AssetPackage where
  assets : List (String × StyleAsset)
deriving DecidableEq

/-- `carto::CompiledStyleSet`: a style asset name inside an asset package. -/
structure CompiledStyleSet where
  styleAssetName : String
  assetPackage : Option AssetPackage
deriving DecidableEq

/-- `carto::CartoCSSStyleSet`: CartoCSS source text plus asset package.
`loadResult` carries the outcome of the external `css::CartoCSSMapLoader::loadMap`
on `cartoCSS` (modelled from the spec: the CartoCSS compiler is external). -/
structure CartoCSSStyleSet where
  cartoCSS : String
  assetPackage : Option AssetPackage
  loadResult : Except String MvtMap
deriving DecidableEq

/-- `boost::variant<std::shared_ptr<CompiledStyleSet>, std::shared_ptr<CartoCSSStyleSet>>`:
the active style source, exactly one of the two kinds. -/
inductive StyleSetV
  | compiled (c : CompiledStyleSet)
  | cartoCSS (c : CartoCSSStyleSet)
deriving DecidableEq

/-- The exceptions `updateCurrentStyle`, the constructors and
`getStyleParameter` throw (components/Exceptions.h): `NullArgumentException`,
`InvalidArgumentException`, `ParseException` (message plus optional underlying
parser message) and `GenericException`. -/
inductive StyleExn
  | nullArgument (msg : String)
  | invalidArgument (msg : String)
  | parse (msg : String) (detail : Option String)
  | generic (msg : String)
deriving DecidableEq

/-- Whether an exception reports a null/empty required configuration (the
spec's invalid-config category: `NullArgumentException` or
`InvalidArgumentException`). -/
def StyleExn.isInvalidConfig : StyleExn → Bool
  | .nullArgument _ => true
  | .invalidArgument _ => true
  | .generic _ => false
  | .parse _ _ => false

/-- The style-derived engine state replaced as a unit by `updateCurrentStyle`
(source lines 558-562): `_map`, `_parameterValueMap`, `_backgroundPattern`,
`_symbolizerContext` (of which the model keeps the parameter snapshot inside its
`Settings`), `_styleSet`. -/
structure StyleState where
  map : MvtMap
  parameterValueMap : List (String × Value)
  settingsParams : List (String × Value)
  backgroundPattern : Option String
  styleSet : StyleSetV
deriving DecidableEq

/-- The mutable engine state guarded by `_mutex`: the style-derived unit plus
`_buffer`, `_featureIdOverride`, `_cartoCSSLayerNamesIgnored`,
`_layerNameOverride`, `_cachedFeatureDecoder`.  `notifyCount` counts deliveries
of the style-changed notification (`notifyDecoderChanged`). -/
structure EngineState where
  style : StyleState
  buffer : ℚ
  featureIdOverride : Bool
  cartoCSSLayerNamesIgnored : Bool
  layerNameOverride : String
  cachedFeatureDecoder : Option (ℕ × FeatureDecoder)
  notifyCount : ℕ
deriving DecidableEq

/-! ## Style parameters (`getStyleParameter` / `setStyleParameter`) -/

/-- First enum label bound to a given value, in map iteration order
(`getStyleParameter` source lines 221-227). -/
def findLabel (v : Value) : List (String × Value) → Option String
  | [] => none
  | (label, w) :: t => if w = v then some label else findLabel v t

/-- `MBVectorTileDecoder::getStyleParameter` (source lines 204-243): unknown
parameter name throws `InvalidArgumentException`; otherwise the current value
(stored override or declared default) is serialized — for an enum parameter the
first matching enum label, for a scalar the stream rendering of the value, and
the empty string when nothing matches. -/
def getStyleParameter (s : EngineState) (param : String) : Except StyleExn String :=
  match alookup param s.style.map.nutiParameterMap with
  | none => .error (.invalidArgument "Could not find parameter")
  | some nutiParam =>
    if nutiParam.enumMap = [] then
      .ok (serializeValue
        ((alookup param s.style.parameterValueMap).getD nutiParam.defaultValue))
    else
      match findLabel ((alookup param s.style.parameterValueMap).getD nutiParam.defaultValue)
          nutiParam.enumMap with
      | some label => .ok label
      | none => .ok ""

/-- The outcome of a `setStyleParameter` call: a boolean return, or an
uncaught exception (`boost::bad_lexical_cast` escaping the function). -/
inductive SetOutcome
  | ok (b : Bool)
  | exn
deriving DecidableEq

/-- The value-parsing step of `setStyleParameter` for a non-enum parameter
(source lines 264-284): dispatch on the alternative held by the declared default
value; booleans accept the literals `"true"`/`"false"` before falling back to
`boost::lexical_cast<bool>`; integers and floats go through `lexical_cast`
(which throws on failure); strings are stored verbatim; a blank default is kept
as is. -/
def parseForKind (dflt : Value) (value : String) : Except Unit Value :=
  match dflt with
  | .boolV _ =>
    if value = "true" then .ok (.boolV true)
    else if value = "false" then .ok (.boolV false)
    else (lexBool value).map .boolV
  | .intV _ => (lexLongLong value).map .intV
  | .doubleV _ => (lexDouble value).map .doubleV
  | .stringV _ => .ok (.stringV value)
  | .nullV => .ok .nullV

/-- `MBVectorTileDecoder::setStyleParameter` (source lines 245-293): unknown
name logs and returns false; an enum parameter stores the value bound to the
given label, returning false for an unknown label; a scalar parameter stores
the value parsed against the declared default's kind — an unparseable string
makes `boost::lexical_cast` throw, which is not caught here.  On success the
symbolizer-context settings are rebuilt from the updated value map, the
style-changed notification is delivered once (after the lock is released) and
true is returned. -/
def setStyleParameter (s : EngineState) (param value : String) : SetOutcome × EngineState :=
  match alookup param s.style.map.nutiParameterMap with
  | none => (.ok false, s)
  | some nutiParam =>
    if nutiParam.enumMap = [] then
      match parseForKind nutiParam.defaultValue value with
      | .error _ => (.exn, s)
      | .ok val =>
        let pvm := setAssoc param val s.style.parameterValueMap
        (.ok true,
          { s with
            style := { s.style with parameterValueMap := pvm, settingsParams := pvm },
            notifyCount := s.notifyCount + 1 })
    else
      match alookup value nutiParam.enumMap with
      | none => (.ok false, s)
      | some v =>
        let pvm := setAssoc param v s.style.parameterValueMap
        (.ok true,
          { s with
            style := { s.style with parameterValueMap := pvm, settingsParams := pvm },
            notifyCount := s.notifyCount + 1 })

/-! ## Style installation (`updateCurrentStyle` and the constructors) -/

/-- Suffix test on strings (`boost::algorithm::ends_with`). -/
def endsWithStr (s suffix : String) : Bool :=
  suffix.data.isSuffixOf s.data

/-- The initial parameter value map built by `updateCurrentStyle` (source lines
527-530): every declared parameter bound to its default value. -/
def defaultParamValues (m : MvtMap) : List (String × Value) :=
  m.nutiParameterMap.map (fun pv => (pv.1, pv.2.defaultValue))

/-- `MBVectorTileDecoder::updateCurrentStyle` (source lines 458-563): load the
map model from the style source — a CartoCSS source through the CartoCSS loader
(parse failure rethrown as `ParseException` with the underlying message), a
compiled source by asset-name suffix: an empty asset name throws
`InvalidArgumentException`; a missing asset or missing package throws
`GenericException`; a `.xml` asset is XML-parsed (load failure throws
`ParseException` with a fixed message, symbolizer processing failure rethrown
as `ParseException` with the underlying message); a `.json` asset goes through
the CartoCSS project loader (failure rethrown as `ParseException` with the
underlying message); any other suffix throws `GenericException`.  On success
the whole style-derived state is rebuilt: parameter values from declared
defaults, symbolizer settings from those values, background pattern from the
map settings. -/
def loadStyleMap (ignoreLayerNames : Bool) (styleSet : StyleSetV) : Except StyleExn MvtMap :=
  match styleSet with
  | .cartoCSS c =>
    match c.loadResult with
    | .ok m => .ok m
    | .error e => .error (.parse "CartoCSS style parsing failed" (some e))
  | .compiled c =>
    if c.styleAssetName = "" then
      .error (.invalidArgument "Could not find any styles in the style set")
    else
      match (match c.assetPackage with
             | some pkg => alookup c.styleAssetName pkg.assets
             | none => none) with
      | none => .error (.generic "Failed to load style description asset")
      | some asset =>
        if endsWithStr c.styleAssetName ".xml" then
          if asset.xmlWellFormed then
            match asset.xmlMapResult with
            | .ok m => .ok m
            | .error e => .error (.parse "XML style processing failed" (some e))
          else
            .error (.parse "Style element XML parsing failed" none)
        else if endsWithStr c.styleAssetName ".json" then
          match asset.cssProjectResult with
          | .ok m => .ok m
          | .error e => .error (.parse "CartoCSS style parsing failed" (some e))
        else
          .error (.generic "Failed to detect style asset type")

/-- The state rebuild performed after a successful map load (source lines
527-562). -/
def updateCurrentStyle (ignoreLayerNames : Bool) (styleSet : StyleSetV) :
    Except StyleExn StyleState :=
  (loadStyleMap ignoreLayerNames styleSet).map fun m =>
    { map := m
      parameterValueMap := defaultParamValues m
      settingsParams := defaultParamValues m
      backgroundPattern := if m.backgroundImage = "" then none else some m.backgroundImage
      styleSet := styleSet }

/-- `MBVectorTileDecoder::MBVectorTileDecoder(compiledStyleSet)` (source lines
118-135): a null style set throws `NullArgumentException`, otherwise the style
is installed by `updateCurrentStyle` over the default-initialized fields. -/
def mkDecoderCompiled (compiledStyleSet : Option CompiledStyleSet) :
    Except StyleExn EngineState :=
  match compiledStyleSet with
  | none => .error (.nullArgument "Null compiledStyleSet")
  | some c =>
    (updateCurrentStyle false (.compiled c)).map fun st =>
      { style := st
        buffer := 0
        featureIdOverride := false
        cartoCSSLayerNamesIgnored := false
        layerNameOverride := ""
        cachedFeatureDecoder := none
        notifyCount := 0 }

/-- `MBVectorTileDecoder::MBVectorTileDecoder(cartoCSSStyleSet)` (source lines
137-154): a null style set throws `NullArgumentException`, otherwise the style
is installed by `updateCurrentStyle` over the default-initialized fields. -/
def mkDecoderCartoCSS (cartoCSSStyleSet : Option CartoCSSStyleSet) :
    Except StyleExn EngineState :=
  match cartoCSSStyleSet with
  | none => .error (.nullArgument "Null cartoCSSStyleSet")
  | some c =>
    (updateCurrentStyle false (.cartoCSS c)).map fun st =>
      { style := st
        buffer := 0
        featureIdOverride := false
        cartoCSSLayerNamesIgnored := false
        layerNameOverride := ""
        cachedFeatureDecoder := none
        notifyCount := 0 }

/-! ## Feature decode (`decodeFeature`) and tile decode (`decodeTile`) -/

/-- The cache-install step of `decodeFeature` (source lines 378-382): on a cache
miss the payload was parsed with the lock released, and after re-acquiring the
lock the freshly parsed decoder is installed unconditionally
(`_cachedFeatureDecoder = std::make_pair(tileData, decoder)`), with no re-check
of what a concurrent caller may have installed in the interim. -/
def cacheInstallStep (cache : Option (ℕ × FeatureDecoder)) (payloadId : ℕ)
    (fresh : FeatureDecoder) : Option (ℕ × FeatureDecoder) :=
  some (payloadId, fresh)

/-- The cache-install step as the spec words it: when re-acquiring the lock,
re-check the slot and prefer a decoder already installed for the same payload
over the freshly parsed one. -/
def cacheInstallStepSpec (cache : Option (ℕ × FeatureDecoder)) (payloadId : ℕ)
    (fresh : FeatureDecoder) : Option (ℕ × FeatureDecoder) :=
  match cache with
  | some (pid, d) => if pid = payloadId then some (pid, d) else some (payloadId, fresh)
  | none => some (payloadId, fresh)

/-- The cache-resolution step of `decodeFeature`'s try block (source lines
375-387), parameterized by the outcome `P` of the external wire-format parser
(`mvt::MBVTFeatureDecoder`'s constructor, which may throw): a cache hit (same
payload identity) reuses the cached decoder; a miss parses the payload and
installs the result through `cacheInstallStep`.  Returns the decoder outcome
together with the cache slot as it stands when this step finishes or throws. -/
def resolveDecoder (P : List ℕ → Except String FeatureDecoder)
    (cache : Option (ℕ × FeatureDecoder)) (td : BinaryData) :
    Except String FeatureDecoder × Option (ℕ × FeatureDecoder) :=
  match cache with
  | some (pid, d) =>
    if pid = td.objId then (.ok d, cache)
    else
      match P td.data with
      | .error e => (.error e, cache)
      | .ok d' => (.ok d', cacheInstallStep cache td.objId d')
  | none =>
    match P td.data with
    | .error e => (.error e, none)
    | .ok d' => (.ok d', cacheInstallStep cache td.objId d')

/-- Continuation of `decodeFeature`'s try block: feature lookup, attribute
conversion and geometry conversion (source lines 389-408). -/
def decodeFeatureBody (P : List ℕ → Except String FeatureDecoder) (s : EngineState)
    (id : Int) (td : BinaryData) (tileBounds : MapBounds) :
    Except String (Option TileFeature) × Option (ℕ × FeatureDecoder) :=
  match resolveDecoder P s.cachedFeatureDecoder td with
  | (.error e, cache') => (.error e, cache')
  | (.ok decoder, cache') =>
    match decoder.getFeature id with
    | none => (.ok none, cache')
    | some (mvtLayerName, mvtFeature) =>
      (.ok (some ⟨mvtFeature.id, mvtLayerName,
        ⟨convertGeometry (tileToMapPos tileBounds) mvtFeature.geometry,
         mvtFeature.featureData.map (fun kv => (kv.1, valueToVariant kv.2))⟩⟩), cache')

/-- `MBVectorTileDecoder::decodeFeature` (source lines 365-413): a null payload
logs a warning and returns absent; an empty payload returns absent; otherwise
the body runs and any exception it throws is caught, logged, and turned into an
absent result.  The returned state reflects the only member the call writes,
the single-slot feature-decoder cache. -/
def decodeFeature (P : List ℕ → Except String FeatureDecoder) (s : EngineState)
    (id : Int) (tileData : Option BinaryData) (tileBounds : MapBounds) :
    Option TileFeature × EngineState :=
  match tileData with
  | none => (none, s)
  | some td =>
    if td.data = [] then (none, s)
    else
      match decodeFeatureBody P s id td tileBounds with
      | (.ok r, cache') => (r, { s with cachedFeatureDecoder := cache' })
      | (.error _, cache') => (none, { s with cachedFeatureDecoder := cache' })

/-- `MBVectorTileDecoder::decodeTile` (source lines 415-456), parameterized by
the outcomes of the two external collaborators: `P`, the wire-format parser
(`mvt::MBVTFeatureDecoder`'s constructor), and `R`, the styled-tile reader
(`mvt::MBVTTileReader::readTile` applied to the snapshotted map, symbolizer
settings, buffer, id-override flag and layer-name override).  A null payload
logs a warning and returns absent; an empty payload returns absent; a parser or
reader exception is caught, logged, and turned into an absent result; a null
tile from the reader returns absent; otherwise the tile map binds the base
level 0 to the styled tile.  No engine state is written. -/
def decodeTile
    (P : List ℕ → Except String FeatureDecoder)
    (R : MvtMap → List (String × Value) → ℚ → Bool → String → FeatureDecoder →
      TileId → TileId → Except String (Option VtTile))
    (s : EngineState) (tile targetTile : TileId) (tileData : Option BinaryData) :
    Option TileMap :=
  match tileData with
  | none => none
  | some td =>
    if td.data = [] then none
    else
      match P td.data with
      | .error _ => none
      | .ok decoder =>
        match R s.style.map s.style.settingsParams s.buffer s.featureIdOverride
            s.layerNameOverride decoder tile targetTile with
        | .error _ => none
        | .ok none => none
        | .ok (some t) => some [(0, t)]

/-! ## The parameter-value invariant -/

/-- A stored value fits a parameter declaration: for an enum parameter it is one
of the enum values, otherwise it holds the declared alternative (the one the
default value holds). -/
def validValue (np : NutiParameter) (v : Value) : Bool :=
  if np.enumMap = [] then decide (v.kind = np.defaultValue.kind)
  else decide (v ∈ np.enumMap.map Prod.snd)

/-- One parameter-value entry is sound for a style map: its key is a declared
parameter and its value fits that declaration. -/
def entryOK (m : MvtMap) (pv : String × Value) : Bool :=
  match alookup pv.1 m.nutiParameterMap with
  | some np => validValue np pv.2
  | none => false

/-- The ParameterValueMap invariant: every entry of the parameter value map is a
declared parameter whose stored value is of the declared kind or a member of the
enum domain. -/
def ParamInvariant (st : StyleState) : Prop :=
  ∀ pv ∈ st.parameterValueMap, entryOK st.map pv = true

/-- Well-formedness of a compiled style model, guaranteed by the (external)
style compilers: declared parameter names are unique and the default value of an
enum parameter belongs to its enum domain. -/
def WFMvtMap (m : MvtMap) : Prop :=
  (m.nutiParameterMap.map Prod.fst).Nodup ∧
  ∀ pnp ∈ m.nutiParameterMap,
    pnp.2.enumMap ≠ [] → pnp.2.defaultValue ∈ pnp.2.enumMap.map Prod.snd

/-! ## Concrete fixtures used by the closed theorems -/

/-- A minimal style map holding the given parameter declarations. -/
def testMap (ps : List (String × NutiParameter)) : MvtMap := ⟨ps, "", ""⟩

/-- A trivially loadable style source for fixtures. -/
def testStyleSet : StyleSetV := .cartoCSS ⟨"", none, .ok (testMap [])⟩

/-- An engine state as produced by installing a style that declares `ps`
(parameter values at their defaults, everything else default-initialized). -/
def testState (ps : List (String × NutiParameter)) : EngineState :=
  { style :=
      { map := testMap ps
        parameterValueMap := defaultParamValues (testMap ps)
        settingsParams := defaultParamValues (testMap ps)
        backgroundPattern := none
        styleSet := testStyleSet }
    buffer := 0
    featureIdOverride := false
    cartoCSSLayerNamesIgnored := false
    layerNameOverride := ""
    cachedFeatureDecoder := none
    notifyCount := 0 }

/-- A state whose style declares one integer parameter `"n"` with default 0. -/
def intParamState : EngineState := testState [("n", ⟨Value.intV 0, []⟩)]

/-- A state whose style declares one boolean parameter `"show_labels"` with
default true. -/
def showLabelsState : EngineState := testState [("show_labels", ⟨Value.boolV true, []⟩)]

/-- A parsed-payload fixture distinct from `decoderB`. -/
def decoderA : FeatureDecoder := ⟨[]⟩

/-- A parsed-payload fixture distinct from `decoderA`. -/
def decoderB : FeatureDecoder := ⟨[(1, "layer", ⟨1, [], none⟩)]⟩

/-- The geometry-type relation claimed for `decodeFeature`: a feature with no
wire geometry yields no geometry; otherwise the output type is the wire type,
collapsed to the singular form exactly when the wire geometry has one part. -/
def geomTypeMatches (mg : Option MvtGeometry) (og : Option Geometry) : Prop :=
  match mg, og with
  | none, og' => og' = none
  | some g, some o => o.gKind = mvtCollapsedKind g
  | some _, none => False

/-- A concrete parsed payload with one two-point line feature under id 5. -/
def decoderC : FeatureDecoder :=
  ⟨[(5, "roads", ⟨5, [("name", Value.stringV "a")],
    some (.line [[(0, 0), (1, 1)], [(0, 1), (1, 0)]])⟩)]⟩

/-- A parser outcome fixture always producing `decoderC`. -/
def parserC : List ℕ → Except String FeatureDecoder := fun _ => .ok decoderC

/-- A payload fixture. -/
def tdC : BinaryData := ⟨1, [0, 1, 2]⟩

/-- A bounds fixture. -/
def boundsC : MapBounds := ⟨0, 0, 1, 1⟩

/-- A parser outcome fixture that always throws. -/
def parserErr : List ℕ → Except String FeatureDecoder := fun _ => .error "malformed"

/-- A reader outcome fixture that always throws. -/
def readerErr : MvtMap → List (String × Value) → ℚ → Bool → String → FeatureDecoder →
    TileId → TileId → Except String (Option VtTile) := fun _ _ _ _ _ _ _ _ => .error "bad"

/-- An empty payload fixture. -/
def tdEmpty : BinaryData := ⟨2, []⟩

/-- A tile id fixture. -/
def tidC : TileId := ⟨3, 1, 2⟩

/-- A style asset whose bytes are not well-formed XML. -/
def badXmlAsset : StyleAsset := ⟨false, .error "ignored", .error "ignored"⟩

/-- A compiled style set naming a malformed `.xml` style asset. -/
def badXmlStyleSet : CompiledStyleSet := ⟨"style.xml", some ⟨[("style.xml", badXmlAsset)]⟩⟩

/-! ## Round-trip lemmas for the numeric wire format -/

theorem digitChar_isDigit {d : ℕ} (h : d < 10) : (digitChar d).isDigit = true := by
  interval_cases d <;> decide

theorem charDigitVal_digitChar {d : ℕ} (h : d < 10) : charDigitVal (digitChar d) = d := by
  interval_cases d <;> decide

theorem natDigitsAux_lt (fuel : ℕ) : ∀ n d, d ∈ natDigitsAux fuel n → d < 10 := by
  induction fuel with
  | zero => intro n d hd; simp [natDigitsAux] at hd
  | succ f ih =>
    intro n d hd
    unfold natDigitsAux at hd
    by_cases hn : n = 0
    · simp [hn] at hd
    · simp only [hn, if_false, List.mem_cons] at hd
      rcases hd with hd | hd
      · omega
      · exact ih _ _ hd

theorem natDigitsAux_foldr (fuel : ℕ) :
    ∀ n, n ≤ fuel → (natDigitsAux fuel n).foldr (fun d a => a * 10 + d) 0 = n := by
  induction fuel with
  | zero => intro n hn; interval_cases n; simp [natDigitsAux]
  | succ f ih =>
    intro n hn
    unfold natDigitsAux
    by_cases hz : n = 0
    · simp [hz]
    · simp only [hz, if_false, List.foldr_cons]
      have hle : n / 10 ≤ f := by omega
      rw [ih _ hle]
      omega

theorem natDigitsAux_ne_nil (fuel n : ℕ) (hn : n ≠ 0) (hf : 0 < fuel) :
    natDigitsAux fuel n ≠ [] := by
  cases fuel with
  | zero => omega
  | succ f => simp [natDigitsAux, hn]

theorem serNat_ne_nil (n : ℕ) : serNat n ≠ [] := by
  unfold serNat
  by_cases hz : n = 0
  · simp [hz]
  · simp only [hz, if_false]
    intro h
    rw [List.reverse_eq_nil_iff, List.map_eq_nil_iff] at h
    exact natDigitsAux_ne_nil n n hz (by omega) h

theorem serNat_all_digit (n : ℕ) : ∀ c ∈ serNat n, c.isDigit = true := by
  intro c hc
  unfold serNat at hc
  by_cases hz : n = 0
  · simp [hz] at hc
    subst hc; decide
  · simp only [hz, if_false, List.mem_reverse, List.mem_map] at hc
    obtain ⟨d, hd, rfl⟩ := hc
    exact digitChar_isDigit (natDigitsAux_lt n n d hd)

theorem foldr_digits_congr (L : List ℕ) (h : ∀ d ∈ L, d < 10) :
    L.foldr (fun d a => a * 10 + charDigitVal (digitChar d)) 0 =
      L.foldr (fun d a => a * 10 + d) 0 := by
  induction L with
  | nil => rfl
  | cons d t ih =>
    simp only [List.foldr_cons]
    rw [ih (fun x hx => h x (List.mem_cons_of_mem d hx)),
      charDigitVal_digitChar (h d (List.mem_cons_self d t))]

theorem parseNat_serNat (n : ℕ) : parseNat (serNat n) = some n := by
  by_cases hz : n = 0
  · subst hz; decide
  · unfold parseNat
    rw [if_pos ⟨serNat_ne_nil n, List.all_eq_true.mpr (fun c hc => serNat_all_digit n c hc)⟩]
    unfold serNat
    simp only [hz, if_false]
    rw [List.foldl_reverse, List.foldr_map]
    unfold natDigits
    rw [foldr_digits_congr _ (fun d hd => natDigitsAux_lt n n d hd),
      natDigitsAux_foldr n n le_rfl]

theorem serNat_head_not_neg (n : ℕ) : serNat n ≠ [] ∧ ∀ c cs, serNat n = c :: cs → c ≠ '-' := by
  refine ⟨serNat_ne_nil n, fun c cs h hne => ?_⟩
  have hd : c.isDigit = true := serNat_all_digit n c (h ▸ List.mem_cons_self c cs)
  rw [hne] at hd
  exact absurd hd (by decide)

theorem parseInt_neg_cons (l : List Char) :
    parseInt ('-' :: l) = (parseNat l).map (fun n => -Int.ofNat n) := by
  rw [parseInt]
  simp

theorem parseInt_not_neg (l : List Char) (h : l.head? ≠ some '-') :
    parseInt l = (parseNat l).map Int.ofNat := by
  rw [parseInt, if_neg h]

theorem parseInt_serInt (i : Int) : parseInt (serInt i) = some i := by
  by_cases hneg : i < 0
  · have hser : serInt i = '-' :: serNat i.natAbs := by rw [serInt, if_pos hneg]
    rw [hser, parseInt_neg_cons, parseNat_serNat]
    simp only [Option.map_some', Int.ofNat_eq_coe]
    congr 1
    omega
  · have hser : serInt i = serNat i.toNat := by rw [serInt, if_neg hneg]
    obtain ⟨c, cs, hcons⟩ : ∃ c cs, serNat i.toNat = c :: cs := by
      cases h : serNat i.toNat with
      | nil => exact absurd h (serNat_ne_nil _)
      | cons c cs => exact ⟨c, cs, rfl⟩
    have hcne : c ≠ '-' := (serNat_head_not_neg i.toNat).2 c cs hcons
    have hhd : (serNat i.toNat).head? ≠ some '-' := by
      rw [hcons]
      simpa using hcne
    rw [hser, parseInt_not_neg _ hhd, parseNat_serNat]
    simp only [Option.map_some', Int.ofNat_eq_coe]
    congr 1
    omega

theorem takeWhile_dropWhile_append (p : Char → Bool) (A : List Char) (b : Char)
    (B : List Char) (hA : ∀ c ∈ A, p c = true) (hb : p b = false) :
    (A ++ b :: B).takeWhile p = A ∧ (A ++ b :: B).dropWhile p = b :: B := by
  induction A with
  | nil => simp [List.takeWhile_cons, List.dropWhile_cons, hb]
  | cons a t ih =>
    have ha : p a = true := hA a (List.mem_cons_self a t)
    have h' := ih (fun c hc => hA c (List.mem_cons_of_mem a hc))
    simp [List.takeWhile_cons, List.dropWhile_cons, ha, h'.1, h'.2]

theorem serInt_chars (i : Int) : ∀ c ∈ serInt i, c = '-' ∨ c.isDigit = true := by
  intro c hc
  unfold serInt at hc
  by_cases h : i < 0
  · simp only [h, if_true, List.mem_cons] at hc
    rcases hc with rfl | hc
    · exact Or.inl rfl
    · exact Or.inr (serNat_all_digit _ c hc)
  · simp only [h, if_false] at hc
    exact Or.inr (serNat_all_digit _ c hc)

theorem isDigit_ne (c d : Char) (hc : c.isDigit = true) (hd : d.isDigit = false) : c ≠ d := by
  intro h
  rw [h] at hc
  rw [hc] at hd
  exact Bool.noConfusion hd

theorem parseUnsignedDec_serNat (n : ℕ) : parseUnsignedDec (serNat n) = some (n : ℚ) := by
  have hdrop : (serNat n).dropWhile (fun c => c != '.') = [] := by
    rw [List.dropWhile_eq_nil_iff]
    intro c hc
    simpa using isDigit_ne c '.' (serNat_all_digit n c hc) (by decide)
  rw [parseUnsignedDec, hdrop, parseNat_serNat]
  rfl

theorem parseSignedDec_serInt (i : Int) : parseSignedDec (serInt i) = some (i : ℚ) := by
  by_cases hneg : i < 0
  · have hser : serInt i = '-' :: serNat i.natAbs := by rw [serInt, if_pos hneg]
    rw [hser, parseSignedDec]
    simp only [List.head?_cons, List.tail_cons]
    rw [if_pos trivial, parseUnsignedDec_serNat]
    simp only [Option.map_some']
    congr 1
    show -(i.natAbs : ℚ) = (i : ℚ)
    rw [Nat.cast_natAbs, abs_of_neg hneg]
    push_cast
    ring
  · have hser : serInt i = serNat i.toNat := by rw [serInt, if_neg hneg]
    obtain ⟨c, cs, hcons⟩ : ∃ c cs, serNat i.toNat = c :: cs := by
      cases h : serNat i.toNat with
      | nil => exact absurd h (serNat_ne_nil _)
      | cons c cs => exact ⟨c, cs, rfl⟩
    have hcne : c ≠ '-' := (serNat_head_not_neg i.toNat).2 c cs hcons
    have hhd : (serNat i.toNat).head? ≠ some '-' := by
      rw [hcons]
      simpa using hcne
    rw [hser, parseSignedDec, if_neg hhd, parseUnsignedDec_serNat]
    congr 1
    have h1 : (i.toNat : ℤ) = i := by omega
    exact_mod_cast congrArg (fun j : ℤ => (j : ℚ)) h1

theorem parseQ_serQ (q : ℚ) (hdvd : q.den ∣ 10 ^ decExp q) : parseQ (serQ q) = some q := by
  obtain ⟨c, hc⟩ := hdvd
  have hden0 : q.den ≠ 0 := q.den_nz
  have hc0 : c ≠ 0 := by
    intro h
    rw [h, Nat.mul_zero] at hc
    exact absurd hc (by positivity)
  have hdiv : 10 ^ decExp q / q.den = c := by
    rw [hc]
    exact Nat.mul_div_cancel_left c (Nat.pos_of_ne_zero hden0)
  have hsplit := takeWhile_dropWhile_append (fun ch => ch != 'e')
    (serInt (q.num * ((10 ^ decExp q / q.den : ℕ) : Int))) 'e' ('-' :: serNat (decExp q))
    (by
      intro ch hch
      rcases serInt_chars _ ch hch with rfl | hd
      · decide
      · simpa using isDigit_ne ch 'e' hd (by decide))
    (by decide)
  rw [serQ, parseQ, hsplit.2, hsplit.1]
  simp only [List.head?_cons, List.tail_cons, if_pos rfl, parseSignedDec_serInt,
    parseNat_serNat, Option.bind_some, Option.map_some', if_true]
  have h10 : ((10 : ℚ)) ^ decExp q = (q.den : ℚ) * (c : ℚ) := by
    have := congrArg (fun n : ℕ => (n : ℚ)) hc
    push_cast at this
    simpa using this
  have hm : ((q.num * ((10 ^ decExp q / q.den : ℕ) : Int) : ℤ) : ℚ) =
      (q.num : ℚ) * (c : ℚ) := by
    rw [hdiv]
    push_cast
    ring
  rw [hm, h10, Option.some_bind]
  congr 1
  rw [mul_div_mul_right _ _ (show (c : ℚ) ≠ 0 by exact_mod_cast hc0)]
  exact Rat.num_div_den q

/-! ## Association list lemmas -/

theorem alookup_setAssoc {β : Type} (k p : String) (v : β) (l : List (String × β)) :
    alookup k (setAssoc p v l) = if k = p then some v else alookup k l := by
  induction l with
  | nil =>
    by_cases h : k = p
    · simp [setAssoc, alookup, h]
    · simp [setAssoc, alookup, h]
  | cons hd t ih =>
    obtain ⟨q, w⟩ := hd
    by_cases hq : q = p
    · subst hq
      by_cases hk : k = q
      · simp [setAssoc, alookup, hk]
      · simp [setAssoc, alookup, hk]
    · by_cases hk : k = q
      · have hkp : ¬ k = p := by
          rw [hk]
          exact hq
        simp [setAssoc, alookup, hq, hk, hkp]
      · simp [setAssoc, alookup, hq, hk, ih]

theorem mem_setAssoc {β : Type} (pv : String × β) (p : String) (v : β)
    (l : List (String × β)) (h : pv ∈ setAssoc p v l) : pv = (p, v) ∨ pv ∈ l := by
  induction l with
  | nil =>
    rw [setAssoc] at h
    rcases List.mem_cons.mp h with h' | h'
    · exact Or.inl h'
    · simp at h'
  | cons hd t ih =>
    obtain ⟨q, w⟩ := hd
    rw [setAssoc] at h
    by_cases hq : q = p
    · rw [if_pos hq] at h
      rcases List.mem_cons.mp h with h' | h'
      · exact Or.inl (by rw [h', hq])
      · exact Or.inr (List.mem_cons_of_mem _ h')
    · rw [if_neg hq] at h
      rcases List.mem_cons.mp h with h' | h'
      · exact Or.inr (by rw [h']; exact List.mem_cons_self _ _)
      · rcases ih h' with h'' | h''
        · exact Or.inl h''
        · exact Or.inr (List.mem_cons_of_mem _ h'')

theorem alookup_mem_snd {β : Type} (k : String) (v : β) (l : List (String × β))
    (h : alookup k l = some v) : v ∈ l.map Prod.snd := by
  induction l with
  | nil => simp [alookup] at h
  | cons hd t ih =>
    obtain ⟨q, w⟩ := hd
    rw [alookup] at h
    by_cases hk : k = q
    · rw [if_pos hk] at h
      injection h with h
      subst h
      exact List.mem_cons_self _ _
    · rw [if_neg hk] at h
      exact List.mem_cons_of_mem _ (ih h)

theorem mem_defaultParamValues (m : MvtMap) (pv : String × Value)
    (h : pv ∈ defaultParamValues m) :
    ∃ np, (pv.1, np) ∈ m.nutiParameterMap ∧ pv.2 = np.defaultValue := by
  unfold defaultParamValues at h
  rw [List.mem_map] at h
  obtain ⟨⟨p, np⟩, hmem, hpv⟩ := h
  exact ⟨np, by rw [← hpv]; exact hmem, by rw [← hpv]⟩

theorem alookup_of_nodup_mem {β : Type} (p : String) (np : β) (l : List (String × β))
    (hnd : (l.map Prod.fst).Nodup) (hmem : (p, np) ∈ l) : alookup p l = some np := by
  induction l with
  | nil => simp at hmem
  | cons hd t ih =>
    obtain ⟨q, w⟩ := hd
    simp only [List.map_cons, List.nodup_cons] at hnd
    rcases List.mem_cons.mp hmem with heq | hmem'
    · injection heq with h1 h2
      subst h1
      subst h2
      simp [alookup]
    · rw [alookup]
      by_cases hk : p = q
      · subst hk
        exact absurd (List.mem_map.mpr ⟨(p, np), hmem', rfl⟩) hnd.1
      · rw [if_neg hk]
        exact ih hnd.2 hmem'

theorem parseForKind_kind (dflt : Value) (v : String) (val : Value)
    (h : parseForKind dflt v = .ok val) : val.kind = dflt.kind := by
  cases dflt with
  | nullV =>
    rw [parseForKind] at h
    injection h with h
    rw [← h]
  | boolV b =>
    rw [parseForKind] at h
    by_cases h1 : v = "true"
    · rw [if_pos h1] at h
      injection h with h
      rw [← h]
      rfl
    · rw [if_neg h1] at h
      by_cases h2 : v = "false"
      · rw [if_pos h2] at h
        injection h with h
        rw [← h]
        rfl
      · rw [if_neg h2] at h
        cases hb : lexBool v with
        | ok b' =>
          rw [hb] at h
          injection h with h
          rw [← h]
          rfl
        | error e =>
          rw [hb] at h
          exact absurd h (by simp [Except.map])
  | intV i =>
    rw [parseForKind] at h
    cases hi : lexLongLong v with
    | ok i' =>
      rw [hi] at h
      injection h with h
      rw [← h]
      rfl
    | error e =>
      rw [hi] at h
      exact absurd h (by simp [Except.map])
  | doubleV q =>
    rw [parseForKind] at h
    cases hq : lexDouble v with
    | ok q' =>
      rw [hq] at h
      injection h with h
      rw [← h]
      rfl
    | error e =>
      rw [hq] at h
      exact absurd h (by simp [Except.map])
  | stringV str =>
    rw [parseForKind] at h
    injection h with h
    rw [← h]
    rfl

/-! ## Claims -/

/-- C5: the coordinate conversion used by `decodeFeature` maps tile-local (x, y)
to (minX + x·(maxX − minX), maxY − y·(maxY − minY)): x maps linearly without
inversion, y is inverted, so (0,0) goes to (minX, maxY) and (1,1) to
(maxX, minY). -/
theorem c5_coordinate_mapping (b : MapBounds) (pos : Vec2) :
    tileToMapPos b pos =
      (b.minX + pos.1 * (b.maxX - b.minX), b.maxY - pos.2 * (b.maxY - b.minY), 0) ∧
    tileToMapPos b (0, 0) = (b.minX, b.maxY, 0) ∧
    tileToMapPos b (1, 1) = (b.maxX, b.minY, 0) := by
  refine ⟨rfl, ?_, ?_⟩ <;>
    simp only [tileToMapPos, Prod.mk.injEq] <;>
    refine ⟨by ring, by ring, trivial⟩

/-- C10: for a name not declared in the current style model,
`getStyleParameter` throws `InvalidArgumentException` (it does not return a
default string), while `setStyleParameter` returns false for the same name. -/
theorem c10_get_unknown_raises (s : EngineState) (param other : String)
    (h : alookup param s.style.map.nutiParameterMap = none) :
    getStyleParameter s param = .error (.invalidArgument "Could not find parameter") ∧
    setStyleParameter s param other = (.ok false, s) := by
  constructor
  · rw [getStyleParameter, h]
  · rw [setStyleParameter, h]

theorem c10_get_unknown_raises_witness :
    getStyleParameter (testState []) "zzz" =
      .error (.invalidArgument "Could not find parameter") ∧
    setStyleParameter (testState []) "zzz" "x" = (.ok false, testState []) :=
  c10_get_unknown_raises (testState []) "zzz" "x" (by decide)

/-- C3 counterexample: with a decoder (`decoderA`) already installed for payload
7, the code's install step replaces it by the freshly parsed decoder
(`decoderB`) instead of keeping the installed one as the spec demands. -/
theorem c3_counterexample :
    cacheInstallStep (some (7, decoderA)) 7 decoderB = some (7, decoderB) ∧
    cacheInstallStepSpec (some (7, decoderA)) 7 decoderB = some (7, decoderA) ∧
    decoderA ≠ decoderB := by
  refine ⟨rfl, by decide, by decide⟩

/-- C3 (amended): on a cache miss the freshly parsed decoder is installed
unconditionally when the lock is re-acquired — the slot is overwritten with the
fresh decoder whatever a concurrent caller may have installed; there is no
re-check preferring the currently installed decoder. -/
theorem c3_install_overwrites (cache : Option (ℕ × FeatureDecoder)) (payloadId : ℕ)
    (fresh : FeatureDecoder) :
    cacheInstallStep cache payloadId fresh = some (payloadId, fresh) := rfl

/-- C1 counterexample: on the state declaring integer parameter `"n"`,
`setStyleParameter("n", "abc")` makes `boost::lexical_cast<long long>` throw and
the exception leaves the function uncaught — the call raises instead of
returning false. -/
theorem c1_counterexample :
    (setStyleParameter intParamState "n" "abc").1 = SetOutcome.exn ∧
    (setStyleParameter intParamState "n" "abc").2 = intParamState := by
  refine ⟨rfl, rfl⟩

/-- C1 (amended): `setStyleParameter` returns false, without raising and with
the parameter values unchanged, for an unknown name and for an enum label
outside the declared domain; but for a non-enum parameter a value string that
fails boolean/integer/float lexical parsing raises (`boost::bad_lexical_cast`
propagates).  Whenever it raises, the engine state is left unchanged. -/
theorem c1_set_failure_modes (s : EngineState) (param value : String) :
    (alookup param s.style.map.nutiParameterMap = none →
      setStyleParameter s param value = (.ok false, s)) ∧
    (∀ np, alookup param s.style.map.nutiParameterMap = some np → np.enumMap ≠ [] →
      alookup value np.enumMap = none → setStyleParameter s param value = (.ok false, s)) ∧
    ((setStyleParameter s param value).1 = SetOutcome.exn →
      (setStyleParameter s param value).2 = s ∧
      ∃ np, alookup param s.style.map.nutiParameterMap = some np ∧ np.enumMap = [] ∧
        ∃ e, parseForKind np.defaultValue value = .error e) := by
  refine ⟨?_, ?_, ?_⟩
  · intro h
    rw [setStyleParameter, h]
  · intro np h hne hv
    simp only [setStyleParameter, h]
    rw [if_neg hne, hv]
  · intro h
    cases hfind : alookup param s.style.map.nutiParameterMap with
    | none => simp [setStyleParameter, hfind] at h
    | some np =>
      by_cases hne : np.enumMap = []
      · cases hp : parseForKind np.defaultValue value with
        | ok val => simp [setStyleParameter, hfind, hne, hp] at h
        | error e =>
          refine ⟨?_, np, rfl, hne, e, hp⟩
          simp [setStyleParameter, hfind, hne, hp]
      · cases hv : alookup value np.enumMap with
        | none => simp [setStyleParameter, hfind, hne, hv] at h
        | some w => simp [setStyleParameter, hfind, hne, hv] at h

theorem c1_set_failure_modes_witness :
    (setStyleParameter intParamState "n" "abc").2 = intParamState ∧
    ∃ np, alookup "n" intParamState.style.map.nutiParameterMap = some np ∧
      np.enumMap = [] ∧ ∃ e, parseForKind np.defaultValue "abc" = .error e :=
  (c1_set_failure_modes intParamState "n" "abc").2.2 (by decide)

/-- C2 counterexample: for a style declaring boolean parameter `"show_labels"`
with default true, `getStyleParameter("show_labels")` returns `"1"` (the
`boost::lexical_cast` stream rendering of a bool), not `"true"` as claimed. -/
theorem c2_counterexample :
    getStyleParameter showLabelsState "show_labels" = .ok "1" ∧
    ("1" : String) ≠ "true" := by
  refine ⟨rfl, by decide⟩

/-- C2 (amended): for a style declaring boolean parameter `"show_labels"` with
default true (and no stored override other than the default),
`getStyleParameter("show_labels")` returns `"1"`;
`setStyleParameter("show_labels", "false")` returns true and fires exactly one
style-changed notification; a subsequent `getStyleParameter("show_labels")`
returns `"0"`. -/
theorem c2_bool_scenario (s : EngineState)
    (hdecl : alookup "show_labels" s.style.map.nutiParameterMap =
      some ⟨Value.boolV true, []⟩)
    (hval : ∀ v, alookup "show_labels" s.style.parameterValueMap = some v →
      v = Value.boolV true) :
    getStyleParameter s "show_labels" = .ok "1" ∧
    (setStyleParameter s "show_labels" "false").1 = .ok true ∧
    (setStyleParameter s "show_labels" "false").2.notifyCount = s.notifyCount + 1 ∧
    getStyleParameter (setStyleParameter s "show_labels" "false").2 "show_labels" =
      .ok "0" := by
  have hcur : (alookup "show_labels" s.style.parameterValueMap).getD
      (Value.boolV true) = Value.boolV true := by
    cases hv : alookup "show_labels" s.style.parameterValueMap with
    | none => rfl
    | some v =>
      rw [Option.getD_some]
      exact hval v hv
  have hparse : parseForKind (Value.boolV true) "false" = .ok (Value.boolV false) := by
    decide
  have hget : getStyleParameter s "show_labels" = .ok "1" := by
    simp only [getStyleParameter, hdecl]
    rw [if_pos trivial, hcur]
    rfl
  have hset : setStyleParameter s "show_labels" "false" =
      (.ok true,
        { s with
          style := { s.style with
            parameterValueMap :=
              setAssoc "show_labels" (Value.boolV false) s.style.parameterValueMap
            settingsParams :=
              setAssoc "show_labels" (Value.boolV false) s.style.parameterValueMap }
          notifyCount := s.notifyCount + 1 }) := by
    simp only [setStyleParameter, hdecl]
    rw [if_pos trivial, hparse]
  refine ⟨hget, by rw [hset], by rw [hset], ?_⟩
  rw [hset]
  simp only [getStyleParameter, hdecl]
  rw [if_pos trivial, alookup_setAssoc, if_pos rfl, Option.getD_some]
  rfl

theorem c2_bool_scenario_witness :
    getStyleParameter showLabelsState "show_labels" = .ok "1" ∧
    (setStyleParameter showLabelsState "show_labels" "false").1 = .ok true ∧
    (setStyleParameter showLabelsState "show_labels" "false").2.notifyCount =
      showLabelsState.notifyCount + 1 ∧
    getStyleParameter (setStyleParameter showLabelsState "show_labels" "false").2
      "show_labels" = .ok "0" :=
  c2_bool_scenario showLabelsState (by decide) (by
    intro v h
    have h' : (some (Value.boolV true) : Option Value) = some v := h
    exact (Option.some.inj h').symm)

/-- C8: the parameter-value invariant — every stored key is a declared
parameter and every stored value is of the declared kind or a member of the
enum domain — is established by style installation (`updateCurrentStyle`
populating the map from declared defaults, given a well-formed compiled style
model) and preserved by every `setStyleParameter` call, whatever its outcome. -/
theorem c8_invariant :
    (∀ ig sset st, updateCurrentStyle ig sset = Except.ok st → WFMvtMap st.map →
      ParamInvariant st) ∧
    (∀ s param value, ParamInvariant s.style →
      ParamInvariant ((setStyleParameter s param value).2.style)) := by
  constructor
  · intro ig sset st hupd hwf
    unfold updateCurrentStyle at hupd
    cases hload : loadStyleMap ig sset with
    | error e =>
      rw [hload] at hupd
      exact absurd hupd (by simp [Except.map])
    | ok m =>
      rw [hload] at hupd
      simp only [Except.map] at hupd
      injection hupd with hupd
      subst hupd
      have hwf' : WFMvtMap m := hwf
      intro pv hpv
      have hpv' : pv ∈ defaultParamValues m := hpv
      show entryOK m pv = true
      obtain ⟨np, hmem, hval⟩ := mem_defaultParamValues m pv hpv'
      rw [entryOK, alookup_of_nodup_mem pv.1 np m.nutiParameterMap hwf'.1 hmem]
      show validValue np pv.2 = true
      rw [hval]
      unfold validValue
      by_cases he : np.enumMap = []
      · rw [if_pos he]
        simp
      · rw [if_neg he]
        simp only [decide_eq_true_eq]
        exact hwf'.2 (pv.1, np) hmem he
  · intro s param value hinv
    cases hfind : alookup param s.style.map.nutiParameterMap with
    | none =>
      simp only [setStyleParameter, hfind]
      exact hinv
    | some np =>
      by_cases hne : np.enumMap = []
      · cases hp : parseForKind np.defaultValue value with
        | error e =>
          simp only [setStyleParameter, hfind, if_pos hne, hp]
          exact hinv
        | ok val =>
          simp only [setStyleParameter, hfind, if_pos hne, hp]
          intro pv hpv
          have hpv' : pv ∈ setAssoc param val s.style.parameterValueMap := hpv
          show entryOK s.style.map pv = true
          rcases mem_setAssoc pv param val _ hpv' with heq | hmem
          · rw [heq, entryOK]
            simp only [hfind]
            show validValue np val = true
            unfold validValue
            rw [if_pos hne]
            simp only [decide_eq_true_eq]
            exact parseForKind_kind np.defaultValue value val hp
          · exact hinv pv hmem
      · cases hv : alookup value np.enumMap with
        | none =>
          simp only [setStyleParameter, hfind, if_neg hne, hv]
          exact hinv
        | some w =>
          simp only [setStyleParameter, hfind, if_neg hne, hv]
          intro pv hpv
          have hpv' : pv ∈ setAssoc param w s.style.parameterValueMap := hpv
          show entryOK s.style.map pv = true
          rcases mem_setAssoc pv param w _ hpv' with heq | hmem
          · rw [heq, entryOK]
            simp only [hfind]
            show validValue np w = true
            unfold validValue
            rw [if_neg hne]
            simp only [decide_eq_true_eq]
            exact alookup_mem_snd value w np.enumMap hv
          · exact hinv pv hmem

theorem c8_invariant_witness :
    ParamInvariant ((setStyleParameter showLabelsState "show_labels" "false").2.style) :=
  c8_invariant.2 showLabelsState "show_labels" "false" (by
    unfold ParamInvariant
    decide)

theorem parseForKind_serializeValue (dflt v : Value) (hk : v.kind = dflt.kind)
    (hnn : dflt.kind ≠ VKind.nullK)
    (hq : ∀ q : ℚ, v = Value.doubleV q → q.den ∣ 10 ^ decExp q) :
    parseForKind dflt (serializeValue v) = .ok v := by
  cases v with
  | nullV =>
    rw [Value.kind] at hk
    exact absurd hk.symm hnn
  | boolV b =>
    cases dflt <;> simp [Value.kind] at hk
    cases b <;> rfl
  | intV i =>
    cases dflt <;> simp [Value.kind] at hk
    show (lexLongLong (String.mk (serInt i))).map Value.intV = .ok (.intV i)
    have hdata : (String.mk (serInt i)).data = serInt i := rfl
    rw [lexLongLong, hdata, parseInt_serInt]
    rfl
  | doubleV q =>
    cases dflt <;> simp [Value.kind] at hk
    show (lexDouble (String.mk (serQ q))).map Value.doubleV = .ok (.doubleV q)
    have hdata : (String.mk (serQ q)).data = serQ q := rfl
    rw [lexDouble, hdata, parseQ_serQ q (hq q rfl)]
    rfl
  | stringV str =>
    cases dflt <;> simp [Value.kind] at hk
    rfl

/-- C9: for a non-enum parameter of boolean, integer, float or string kind
whose stored value matches the declared kind (the ParameterValueMap
invariant), `setStyleParameter(P, getStyleParameter(P))` succeeds and a
subsequent `getStyleParameter(P)` returns the very same string — the
serialize/parse round-trip is the identity.  For a float-kind parameter the
stored value must be one a machine double can take (10-smooth denominator),
expressed as `q.den ∣ 10 ^ decExp q`. -/
theorem c9_roundtrip (s : EngineState) (param : String) (np : NutiParameter)
    (hfind : alookup param s.style.map.nutiParameterMap = some np)
    (henum : np.enumMap = [])
    (hkind : ((alookup param s.style.parameterValueMap).getD np.defaultValue).kind =
      np.defaultValue.kind)
    (hnn : np.defaultValue.kind ≠ VKind.nullK)
    (hq : ∀ q : ℚ, (alookup param s.style.parameterValueMap).getD np.defaultValue =
      Value.doubleV q → q.den ∣ 10 ^ decExp q) :
    ∃ out s', getStyleParameter s param = .ok out ∧
      setStyleParameter s param out = (.ok true, s') ∧
      getStyleParameter s' param = .ok out := by
  set v := (alookup param s.style.parameterValueMap).getD np.defaultValue with hv
  have hget : getStyleParameter s param = .ok (serializeValue v) := by
    simp only [getStyleParameter, hfind]
    rw [if_pos henum, ← hv]
  have hparse : parseForKind np.defaultValue (serializeValue v) = .ok v :=
    parseForKind_serializeValue np.defaultValue v hkind hnn hq
  refine ⟨serializeValue v,
    { s with
      style := { s.style with
        parameterValueMap := setAssoc param v s.style.parameterValueMap
        settingsParams := setAssoc param v s.style.parameterValueMap }
      notifyCount := s.notifyCount + 1 }, hget, ?_, ?_⟩
  · simp only [setStyleParameter, hfind]
    rw [if_pos henum, hparse]
  · simp only [getStyleParameter, hfind]
    rw [if_pos henum, alookup_setAssoc, if_pos rfl, Option.getD_some]

theorem c9_roundtrip_witness :
    ∃ out s', getStyleParameter intParamState "n" = .ok out ∧
      setStyleParameter intParamState "n" out = (.ok true, s') ∧
      getStyleParameter s' "n" = .ok out :=
  c9_roundtrip intParamState "n" ⟨Value.intV 0, []⟩ (by decide) (by decide) (by decide)
    (by decide) (by
      intro q h
      have h' : Value.intV 0 = Value.doubleV q := h
      exact Value.noConfusion h')

theorem convertGeometry_kind (f : Vec2 → MapPos) (g : MvtGeometry) :
    ∃ og, convertGeometry f (some g) = some og ∧ og.gKind = mvtCollapsedKind g := by
  cases g with
  | point vs =>
    match vs with
    | [] => exact ⟨_, rfl, rfl⟩
    | [a] => exact ⟨_, rfl, rfl⟩
    | a :: b :: t => exact ⟨_, rfl, rfl⟩
  | line ls =>
    match ls with
    | [] => exact ⟨_, rfl, rfl⟩
    | [a] => exact ⟨_, rfl, rfl⟩
    | a :: b :: t => exact ⟨_, rfl, rfl⟩
  | polygon ps =>
    match ps with
    | [] => exact ⟨_, rfl, rfl⟩
    | [a] => exact ⟨_, rfl, rfl⟩
    | a :: b :: t => exact ⟨_, rfl, rfl⟩

/-- C6: for a non-null, non-empty payload that parses to a decoder,
`decodeFeature` returns absent when no feature with the requested id is
present; when a feature is present, it returns that feature with its id and
layer name, and the returned geometry's type matches the wire geometry's type,
a one-part multi-geometry collapsing to the singular Point/Line/Polygon and
any other part count staying MultiPoint/MultiLine/MultiPolygon. -/
theorem c6_feature_lookup (P : List ℕ → Except String FeatureDecoder) (s : EngineState)
    (id : Int) (td : BinaryData) (bounds : MapBounds) (dec : FeatureDecoder)
    (hdata : td.data ≠ [])
    (hcache : s.cachedFeatureDecoder = none)
    (hparse : P td.data = .ok dec) :
    (dec.getFeature id = none → (decodeFeature P s id (some td) bounds).1 = none) ∧
    (∀ layer mf, dec.getFeature id = some (layer, mf) →
      ∃ tf, (decodeFeature P s id (some td) bounds).1 = some tf ∧
        tf.id = mf.id ∧ tf.layerName = layer ∧
        geomTypeMatches mf.geometry tf.feature.geometry) := by
  have hbody : ∀ r cache', decodeFeatureBody P s id td bounds = (r, cache') →
      (decodeFeature P s id (some td) bounds).1 =
        (match r with | .ok x => x | .error _ => none) := by
    intro r cache' hb
    rw [decodeFeature, if_neg hdata, hb]
    cases r with
    | ok x => rfl
    | error e => rfl
  have hres : resolveDecoder P s.cachedFeatureDecoder td =
      (.ok dec, some (td.objId, dec)) := by
    rw [hcache, resolveDecoder, hparse]
    rfl
  constructor
  · intro hnone
    have hb : decodeFeatureBody P s id td bounds = (.ok none, some (td.objId, dec)) := by
      rw [decodeFeatureBody, hres]
      show (match dec.getFeature id with
        | none => ((Except.ok none : Except String (Option TileFeature)), some (td.objId, dec))
        | some (mvtLayerName, mvtFeature) =>
          (Except.ok (some ⟨mvtFeature.id, mvtLayerName,
            ⟨convertGeometry (tileToMapPos bounds) mvtFeature.geometry,
             mvtFeature.featureData.map
               (fun (kv : String × Value) => (kv.1, valueToVariant kv.2))⟩⟩),
           some (td.objId, dec))) = (.ok none, some (td.objId, dec))
      rw [hnone]
    rw [hbody _ _ hb]
  · intro layer mf hsome
    have hb : decodeFeatureBody P s id td bounds =
        (.ok (some ⟨mf.id, layer,
          ⟨convertGeometry (tileToMapPos bounds) mf.geometry,
           mf.featureData.map (fun kv => (kv.1, valueToVariant kv.2))⟩⟩),
         some (td.objId, dec)) := by
      rw [decodeFeatureBody, hres]
      show (match dec.getFeature id with
        | none => ((Except.ok none : Except String (Option TileFeature)), some (td.objId, dec))
        | some (mvtLayerName, mvtFeature) =>
          (Except.ok (some ⟨mvtFeature.id, mvtLayerName,
            ⟨convertGeometry (tileToMapPos bounds) mvtFeature.geometry,
             mvtFeature.featureData.map
               (fun (kv : String × Value) => (kv.1, valueToVariant kv.2))⟩⟩),
           some (td.objId, dec))) = _
      rw [hsome]
    refine ⟨_, by rw [hbody _ _ hb], rfl, rfl, ?_⟩
    cases hg : mf.geometry with
    | none => rfl
    | some g =>
      obtain ⟨og, hconv, hkind⟩ := convertGeometry_kind (tileToMapPos bounds) g
      show geomTypeMatches (some g) (convertGeometry (tileToMapPos bounds) (some g))
      rw [hconv]
      exact hkind

theorem c6_feature_lookup_witness :
    ∃ tf, (decodeFeature parserC (testState []) 5 (some tdC) boundsC).1 = some tf ∧
      tf.id = (5 : Int) ∧ tf.layerName = "roads" ∧
      geomTypeMatches (some (.line [[(0, 0), (1, 1)], [(0, 1), (1, 0)]]))
        tf.feature.geometry :=
  (c6_feature_lookup parserC (testState []) 5 tdC boundsC decoderC (by decide) rfl rfl).2
    "roads"
    ⟨5, [("name", Value.stringV "a")], some (.line [[(0, 0), (1, 1)], [(0, 1), (1, 0)]])⟩
    rfl

/-- C4: `decodeFeature` and `decodeTile` never propagate an exception.  A null
payload and a zero-length payload yield an absent result with the state
untouched.  Whatever the body of `decodeFeature` throws is caught and turned
into an absent result, and the call writes nothing but the feature-decoder
cache slot (style state, buffering, flags and notification count are
untouched).  `decodeTile` writes no state at all, and a parser exception, a
reader exception or a null reader result each yield an absent result. -/
theorem c4_decode_never_throws (P : List ℕ → Except String FeatureDecoder)
    (R : MvtMap → List (String × Value) → ℚ → Bool → String → FeatureDecoder →
      TileId → TileId → Except String (Option VtTile))
    (s : EngineState) (id : Int) (tile targetTile : TileId) (td : BinaryData)
    (bounds : MapBounds) :
    (decodeFeature P s id none bounds = (none, s)) ∧
    (td.data = [] → decodeFeature P s id (some td) bounds = (none, s)) ∧
    (∀ e, (decodeFeatureBody P s id td bounds).1 = .error e →
      (decodeFeature P s id (some td) bounds).1 = none) ∧
    ((decodeFeature P s id (some td) bounds).2.style = s.style ∧
     (decodeFeature P s id (some td) bounds).2.buffer = s.buffer ∧
     (decodeFeature P s id (some td) bounds).2.featureIdOverride = s.featureIdOverride ∧
     (decodeFeature P s id (some td) bounds).2.cartoCSSLayerNamesIgnored =
       s.cartoCSSLayerNamesIgnored ∧
     (decodeFeature P s id (some td) bounds).2.layerNameOverride = s.layerNameOverride ∧
     (decodeFeature P s id (some td) bounds).2.notifyCount = s.notifyCount) ∧
    (decodeTile P R s tile targetTile none = none) ∧
    (td.data = [] → decodeTile P R s tile targetTile (some td) = none) ∧
    (∀ e, P td.data = .error e → decodeTile P R s tile targetTile (some td) = none) ∧
    (∀ dec e, P td.data = .ok dec →
      R s.style.map s.style.settingsParams s.buffer s.featureIdOverride
        s.layerNameOverride dec tile targetTile = .error e →
      decodeTile P R s tile targetTile (some td) = none) ∧
    (∀ dec, P td.data = .ok dec →
      R s.style.map s.style.settingsParams s.buffer s.featureIdOverride
        s.layerNameOverride dec tile targetTile = .ok none →
      decodeTile P R s tile targetTile (some td) = none) := by
  have hfeat : ∀ hd : ¬ td.data = [],
      decodeFeature P s id (some td) bounds =
        (match decodeFeatureBody P s id td bounds with
         | (.ok r, cache') => (r, { s with cachedFeatureDecoder := cache' })
         | (.error _, cache') => (none, { s with cachedFeatureDecoder := cache' })) := by
    intro hd
    rw [decodeFeature, if_neg hd]
  refine ⟨rfl, ?_, ?_, ?_, rfl, ?_, ?_, ?_, ?_⟩
  · intro hd
    rw [decodeFeature, if_pos hd]
  · intro e he
    by_cases hd : td.data = []
    · rw [decodeFeature, if_pos hd]
    · rw [hfeat hd]
      rcases hb : decodeFeatureBody P s id td bounds with ⟨r, cache'⟩
      rw [hb] at he
      cases r with
      | ok x => exact absurd he (by simp)
      | error e' => rfl
  · by_cases hd : td.data = []
    · rw [decodeFeature, if_pos hd]
      exact ⟨rfl, rfl, rfl, rfl, rfl, rfl⟩
    · rw [hfeat hd]
      rcases hb : decodeFeatureBody P s id td bounds with ⟨r, cache'⟩
      cases r with
      | ok x => exact ⟨rfl, rfl, rfl, rfl, rfl, rfl⟩
      | error e' => exact ⟨rfl, rfl, rfl, rfl, rfl, rfl⟩
  · intro hd
    rw [decodeTile, if_pos hd]
  · intro e he
    by_cases hd : td.data = []
    · rw [decodeTile, if_pos hd]
    · rw [decodeTile, if_neg hd, he]
  · intro dec e hp hr
    by_cases hd : td.data = []
    · rw [decodeTile, if_pos hd]
    · rw [decodeTile, if_neg hd, hp]
      show (match R s.style.map s.style.settingsParams s.buffer s.featureIdOverride
          s.layerNameOverride dec tile targetTile with
        | .error _ => (none : Option TileMap)
        | .ok none => none
        | .ok (some t) => some [(0, t)]) = none
      rw [hr]
  · intro dec hp hr
    by_cases hd : td.data = []
    · rw [decodeTile, if_pos hd]
    · rw [decodeTile, if_neg hd, hp]
      show (match R s.style.map s.style.settingsParams s.buffer s.featureIdOverride
          s.layerNameOverride dec tile targetTile with
        | .error _ => (none : Option TileMap)
        | .ok none => none
        | .ok (some t) => some [(0, t)]) = none
      rw [hr]

theorem c4_decode_never_throws_witness :
    (decodeFeature parserErr (testState []) 0 (some tdEmpty) boundsC =
      (none, testState [])) ∧
    ((decodeFeature parserErr (testState []) 0 (some tdC) boundsC).1 = none) ∧
    (decodeTile parserErr readerErr (testState []) tidC tidC (some tdC) = none) := by
  have h := c4_decode_never_throws parserErr readerErr (testState []) 0 tidC tidC
    tdEmpty boundsC
  have h' := c4_decode_never_throws parserErr readerErr (testState []) 0 tidC tidC
    tdC boundsC
  exact ⟨h.2.1 (by decide), h'.2.2.1 "malformed" (by decide),
    h'.2.2.2.2.2.2.1 "malformed" (by decide)⟩

/-- C7 counterexample: installing a compiled style whose `.xml` asset fails XML
document loading raises a `ParseException` with a fixed message and **no**
underlying parser message (`detail = none`), contradicting the claim that a
parse error always carries the underlying parser message. -/
theorem c7_counterexample :
    updateCurrentStyle false (.compiled badXmlStyleSet) =
      .error (.parse "Style element XML parsing failed" none) := by
  rfl

/-- C7 (amended): style installation raises exactly per the source taxonomy: a
malformed CartoCSS source raises a parse error carrying the underlying parser
message; an empty style asset name raises an invalid-argument error (an
invalid-config condition); a missing asset package or unloadable style asset
raises a generic asset error; a `.xml` asset that fails XML document loading
raises a parse error with a fixed message and no underlying parser message; a
`.xml` asset whose symbolizer processing fails, or a `.json` asset whose
CartoCSS project loading fails, raises a parse error carrying the underlying
message; any other suffix raises a generic unsupported-format error; a null
style source makes the constructors raise a null-argument error (an
invalid-config condition). -/
theorem c7_style_install_errors :
    (∀ ig c e, c.loadResult = Except.error e →
      updateCurrentStyle ig (.cartoCSS c) =
        .error (.parse "CartoCSS style parsing failed" (some e))) ∧
    (∀ ig c, c.styleAssetName = "" →
      updateCurrentStyle ig (.compiled c) =
        .error (.invalidArgument "Could not find any styles in the style set") ∧
      (StyleExn.invalidArgument "Could not find any styles in the style set").isInvalidConfig
        = true) ∧
    (∀ ig c, c.styleAssetName ≠ "" →
      (match c.assetPackage with
       | some pkg => alookup c.styleAssetName pkg.assets
       | none => none) = none →
      updateCurrentStyle ig (.compiled c) =
        .error (.generic "Failed to load style description asset")) ∧
    (∀ ig c asset, c.styleAssetName ≠ "" →
      (match c.assetPackage with
       | some pkg => alookup c.styleAssetName pkg.assets
       | none => none) = some asset →
      endsWithStr c.styleAssetName ".xml" = true →
      (asset.xmlWellFormed = false →
        updateCurrentStyle ig (.compiled c) =
          .error (.parse "Style element XML parsing failed" none)) ∧
      (∀ e, asset.xmlWellFormed = true → asset.xmlMapResult = Except.error e →
        updateCurrentStyle ig (.compiled c) =
          .error (.parse "XML style processing failed" (some e)))) ∧
    (∀ ig c asset e, c.styleAssetName ≠ "" →
      (match c.assetPackage with
       | some pkg => alookup c.styleAssetName pkg.assets
       | none => none) = some asset →
      endsWithStr c.styleAssetName ".xml" = false →
      endsWithStr c.styleAssetName ".json" = true →
      asset.cssProjectResult = Except.error e →
      updateCurrentStyle ig (.compiled c) =
        .error (.parse "CartoCSS style parsing failed" (some e))) ∧
    (∀ ig c asset, c.styleAssetName ≠ "" →
      (match c.assetPackage with
       | some pkg => alookup c.styleAssetName pkg.assets
       | none => none) = some asset →
      endsWithStr c.styleAssetName ".xml" = false →
      endsWithStr c.styleAssetName ".json" = false →
      updateCurrentStyle ig (.compiled c) =
        .error (.generic "Failed to detect style asset type")) ∧
    (mkDecoderCompiled none = .error (.nullArgument "Null compiledStyleSet") ∧
     mkDecoderCartoCSS none = .error (.nullArgument "Null cartoCSSStyleSet") ∧
     (StyleExn.nullArgument "Null compiledStyleSet").isInvalidConfig = true) := by
  refine ⟨?_, ?_, ?_, ?_, ?_, ?_, rfl, rfl, rfl⟩
  · intro ig c e he
    rw [updateCurrentStyle, loadStyleMap, he]
    rfl
  · intro ig c hname
    refine ⟨?_, rfl⟩
    rw [updateCurrentStyle, loadStyleMap]
    rw [if_pos hname]
    rfl
  · intro ig c hname hlk
    rw [updateCurrentStyle, loadStyleMap, if_neg hname, hlk]
    rfl
  · intro ig c asset hname hlk hxml
    constructor
    · intro hwf
      simp [updateCurrentStyle, loadStyleMap, hname, hlk, hxml, hwf]
      rfl
    · intro e hwf hres
      simp [updateCurrentStyle, loadStyleMap, hname, hlk, hxml, hwf, hres]
      rfl
  · intro ig c asset e hname hlk hxml hjson hres
    simp [updateCurrentStyle, loadStyleMap, hname, hlk, hxml, hjson, hres]
    rfl
  · intro ig c asset hname hlk hxml hjson
    simp [updateCurrentStyle, loadStyleMap, hname, hlk, hxml, hjson]
    rfl

theorem c7_style_install_errors_witness :
    updateCurrentStyle false (.cartoCSS ⟨"bad css", none, .error "unexpected token"⟩) =
      .error (.parse "CartoCSS style parsing failed" (some "unexpected token")) :=
  c7_style_install_errors.1 false ⟨"bad css", none, .error "unexpected token"⟩
    "unexpected token" rfl
